import Mathlib

/-!
Verification of the keyspace block coordinator
(src/keyhunt_smart_coordinator_v3.5.0.py) against its natural-language
specification.

The Python source is shallowly embedded below.  Arbitrary-precision Python
integers become `Nat` (all quantities involved are non-negative; hypotheses
record the validity conditions the program establishes before the modelled
code runs, e.g. `range_start <= range_end` and `1 <= block_size`).  Hex
strings become `List Char`; `int(s, 16)` becomes `hexToNat`; Python's
`hex(n)[2:].upper()` becomes `toHexUpper`.  SQLite tables keyed by
`block_start TEXT PRIMARY KEY` with `INSERT OR REPLACE` become association
lists upserted by their first component.  The worker subprocess is modelled
by the classified stream of non-empty output lines it produces together
with its exit status.
-/

namespace KeyHunt

/-! ## Hex string utilities

`hexCharVal`/`hexToNat` model Python's `int(s, 16)` on the hex strings the
program builds (digits `0`-`9`, `A`-`F`, `a`-`f`); `hexDigitChar`,
`toHexUpper` model `hex(n)[2:].upper()`. -/

/-- Value of one hex digit character, as `int(-, 16)` assigns it. -/
def hexCharVal (c : Char) : Nat :=
  if 48 ≤ c.toNat ∧ c.toNat ≤ 57 then c.toNat - 48
  else if 65 ≤ c.toNat ∧ c.toNat ≤ 70 then c.toNat - 55
  else if 97 ≤ c.toNat ∧ c.toNat ≤ 102 then c.toNat - 87
  else 0

/-- `int(s, 16)` for a list of hex digit characters. -/
def hexToNat (s : List Char) : Nat :=
  s.foldl (fun acc c => 16 * acc + hexCharVal c) 0

/-- Upper-case hex digit character for a value below 16. -/
def hexDigitChar (n : Nat) : Char :=
  if n < 10 then Char.ofNat (48 + n) else Char.ofNat (55 + n)

/-- Digit-accumulating loop of `toHexUpper`.  The `fuel` argument is the
explicit termination measure of the repeated division by 16; `fuel = n`
always suffices. -/
def toHexUpperAux : Nat → Nat → List Char → List Char
  | 0, _, acc => acc
  | fuel + 1, n, acc =>
    if n = 0 then acc
    else toHexUpperAux fuel (n / 16) (hexDigitChar (n % 16) :: acc)

/-- `hex(n)[2:].upper()`: upper-case hex rendering of `n`, no prefix. -/
def toHexUpper (n : Nat) : List Char :=
  if n = 0 then ['0'] else toHexUpperAux n n []

/-! ## PoolScraper decoders (source lines 132-171) -/

/-- The sixteen hex digits iterated by the decoders
(Python `for x in '0123456789ABCDEF'`). -/
def hexDigitsList : List Char :=
  ['0', '1', '2', '3', '4', '5', '6', '7', '8', '9', 'A', 'B', 'C', 'D', 'E', 'F']

/-- Low tail `'3000000000'` appended by `_decode_range_id`. -/
def lowTail : List Char := ['3', '0', '0', '0', '0', '0', '0', '0', '0', '0']

/-- High tail `'3FFFFFFFFF'` appended by `_decode_range_id`. -/
def highTail : List Char := ['3', 'F', 'F', 'F', 'F', 'F', 'F', 'F', 'F', 'F']

/-- Low tail `'0003000000000'` appended by `_decode_challenge`. -/
def challengeLowTail : List Char :=
  ['0', '0', '0', '3', '0', '0', '0', '0', '0', '0', '0', '0', '0']

/-- High tail `'0003FFFFFFFFF'` appended by `_decode_challenge`. -/
def challengeHighTail : List Char :=
  ['0', '0', '0', '3', 'F', 'F', 'F', 'F', 'F', 'F', 'F', 'F', 'F']

/-- `PoolScraper._decode_range_id`: slices the 2-character prefix
(`range_id[0:2]`) and the 4- or 5-character suffix (`range_id[3:]`), then
for every hex digit `x` forms the pair
`(int(pre + x + suf + '3000000000', 16), int(pre + x + suf + '3FFFFFFFFF', 16))`. -/
def decode_range_id (range_id : List Char) : List (Nat × Nat) :=
  let hexPre := range_id.take 2
  let hexSuf := range_id.drop 3
  hexDigitsList.map fun x =>
    (hexToNat (hexPre ++ x :: (hexSuf ++ lowTail)),
     hexToNat (hexPre ++ x :: (hexSuf ++ highTail)))

/-- `PoolScraper._decode_challenge`: for every pair of hex digits `x1 x2`
forms `(int(pre + x1 + x2 + '0003000000000', 16), int(pre + x1 + x2 + '0003FFFFFFFFF', 16))`. -/
def decode_challenge (challengePre : List Char) : List (Nat × Nat) :=
  hexDigitsList.flatMap fun x1 =>
    hexDigitsList.map fun x2 =>
      (hexToNat (challengePre ++ x1 :: x2 :: challengeLowTail),
       hexToNat (challengePre ++ x1 :: x2 :: challengeHighTail))

/-! ## BlockManager (source lines 174-200) -/

/-- `BlockManager` state after `__init__`. -/
structure BlockManager where
  range_start : Nat
  range_end : Nat
  block_size : Nat
  total_blocks : Nat
  deriving DecidableEq, Repr

/-- `BlockManager.__init__(range_start, range_end, block_size=None)`:
the default block size is `0x1000000000`, and
`total_blocks = (range_end - range_start) // block_size + 1`. -/
def BlockManager.init (range_start range_end : Nat) (block_size : Option Nat) :
    BlockManager :=
  let bs := match block_size with
    | none => 0x1000000000
    | some b => b
  { range_start := range_start
    range_end := range_end
    block_size := bs
    total_blocks := (range_end - range_start) / bs + 1 }

/-- `BlockManager.get_block(block_index)`: no bounds check in the source;
returns `(block_start, min(block_start + block_size - 1, range_end))`. -/
def BlockManager.get_block (m : BlockManager) (block_index : Nat) : Nat × Nat :=
  let block_start := m.range_start + block_index * m.block_size
  (block_start, min (block_start + m.block_size - 1) m.range_end)

/-! ## Pattern exclusion filter (source lines 3312-3359) -/

/-- Loop of `has_repeated_chars`.  The Python loop state is the running
count of the current run (`count`), and the previous character
(`prev_char`, initially the empty string, which matches no character —
modelled as `Option Char` with initial value `none`).  On a repeat the
count is incremented and the predicate returns `True` as soon as
`count >= min_repeats` for a character other than `'0'`; otherwise the
count restarts at 1. -/
def hasRepeatedCharsLoop (min_repeats : Nat) :
    List Char → Nat → Option Char → Bool
  | [], _, _ => false
  | c :: rest, count, prev =>
    if prev = some c then
      if min_repeats ≤ count + 1 ∧ c ≠ '0' then true
      else hasRepeatedCharsLoop min_repeats rest (count + 1) prev
    else hasRepeatedCharsLoop min_repeats rest 1 (some c)

/-- `has_repeated_chars(hex_string, min_repeats)` (source line 3312). -/
def has_repeated_chars (hex_string : List Char) (min_repeats : Nat) : Bool :=
  hasRepeatedCharsLoop min_repeats hex_string 1 none

/-- `is_all_alpha_or_numeric(hex_string)` (source line 3329): XOR of
"has a letter" and "has a digit". -/
def is_all_alpha_or_numeric (hex_string : List Char) : Bool :=
  let has_alpha := hex_string.any fun c =>
    (['A', 'B', 'C', 'D', 'E', 'F', 'a', 'b', 'c', 'd', 'e', 'f'] : List Char).contains c
  let has_numeric := hex_string.any fun c =>
    (['0', '1', '2', '3', '4', '5', '6', '7', '8', '9'] : List Char).contains c
  xor has_alpha has_numeric

/-- The three GUI pattern-exclusion toggles read by
`should_skip_block_by_pattern`. -/
structure PatternConfig where
  exclude_iter3 : Bool
  exclude_iter4 : Bool
  exclude_alphanum : Bool
  deriving DecidableEq, Repr

/-- Reason tag returned by `should_skip_block_by_pattern` (the source
returns the strings "repeated-3", "repeated-4", "alphanum-only"). -/
inductive SkipReason where
  | repeated3
  | repeated4
  | alphanumOnly
  deriving DecidableEq, Repr

/-- `should_skip_block_by_pattern(block_start, block_end)` (source line
3338): renders both boundaries as upper-case hex and tests the enabled
predicates on either. -/
def should_skip_block_by_pattern (cfg : PatternConfig)
    (block_start block_end : Nat) : Bool × Option SkipReason :=
  let start_hex := toHexUpper block_start
  let end_hex := toHexUpper block_end
  if cfg.exclude_iter3 &&
      (has_repeated_chars start_hex 3 || has_repeated_chars end_hex 3) then
    (true, some .repeated3)
  else if cfg.exclude_iter4 &&
      (has_repeated_chars start_hex 4 || has_repeated_chars end_hex 4) then
    (true, some .repeated4)
  else if cfg.exclude_alphanum &&
      (is_all_alpha_or_numeric start_hex || is_all_alpha_or_numeric end_hex) then
    (true, some .alphanumOnly)
  else
    (false, none)

/-! ## ScanDatabase (source lines 203-349)

Rows store hex strings exactly as the source does
(`hex(n)[2:].upper()`); both tables are keyed by `block_start TEXT
PRIMARY KEY` and written with `INSERT OR REPLACE` (upsert by start). -/

/-- Which source claimed a scanned block ("pool" / "me" in the source). -/
inductive ScanSource where
  | pool
  | me
  deriving DecidableEq, Repr

/-- The two tables of `ScanDatabase`: `pool_scanned(block_start, block_end)`
and `my_scanned(block_start, block_end, keys_checked)` (timestamps
omitted — never read back by the modelled code). -/
structure ScanDatabase where
  pool_scanned : List (List Char × List Char)
  my_scanned : List (List Char × List Char × Nat)
  deriving DecidableEq, Repr

/-- `INSERT OR REPLACE` keyed on the first column. -/
def upsertByStart (rows : List (List Char × List Char)) (key val : List Char) :
    List (List Char × List Char) :=
  (key, val) :: rows.filter fun r => !decide (r.1 = key)

/-- `ScanDatabase.add_pool_blocks(blocks)` (source line 248): upserts each
block keyed by its start hex and counts how many starts were new vs
already present. -/
def add_pool_blocks (db : ScanDatabase) (blocks : List (Nat × Nat)) :
    ScanDatabase × Nat × Nat :=
  blocks.foldl
    (fun acc b =>
      let sh := toHexUpper b.1
      let eh := toHexUpper b.2
      let exists_ := acc.1.pool_scanned.any fun r => decide (r.1 = sh)
      let db' : ScanDatabase :=
        { acc.1 with pool_scanned := upsertByStart acc.1.pool_scanned sh eh }
      if exists_ then (db', acc.2.1, acc.2.2 + 1) else (db', acc.2.1 + 1, acc.2.2))
    (db, 0, 0)

/-- `ScanDatabase.add_my_block(block_start, block_end, keys_checked)`
(source line 282): upsert into `my_scanned` keyed by start hex. -/
def add_my_block (db : ScanDatabase) (block_start block_end keys_checked : Nat) :
    ScanDatabase :=
  let sh := toHexUpper block_start
  let eh := toHexUpper block_end
  { db with my_scanned :=
      (sh, eh, keys_checked) :: db.my_scanned.filter fun r => !decide (r.1 = sh) }

/-- `ScanDatabase.is_block_scanned(block_start, block_end)` (source line
299): exact-boundary lookup, pool first, then my scans. -/
def is_block_scanned (db : ScanDatabase) (block_start block_end : Nat) :
    Bool × Option ScanSource :=
  let sh := toHexUpper block_start
  let eh := toHexUpper block_end
  if db.pool_scanned.any (fun r => decide (r.1 = sh) && decide (r.2 = eh)) then
    (true, some .pool)
  else if db.my_scanned.any (fun r => decide (r.1 = sh) && decide (r.2.1 = eh)) then
    (true, some .me)
  else
    (false, none)

/-! ## Coordinator state and block selection (source lines 2429-2770)

The GUI object's fields relevant to block selection and collision
handling.  `worker` models `self.process`: `some b` means a KeyHunt
process launched for block `b` is in flight (`run_block_search` started
for it), `none` means no process.  The GLib idle/timeout indirections
only reschedule work on the main loop; the model composes the same steps
sequentially, which is the serialized order the owner thread observes. -/

structure CoordState where
  block_mgr : BlockManager
  scan_db : ScanDatabase
  pattern_cfg : PatternConfig
  current_block_index : Nat
  current_block : Option (Nat × Nat)
  keys_checked : Nat
  is_running : Bool
  worker : Option (Nat × Nat)
  deriving DecidableEq, Repr

/-- The `while self.current_block_index < self.block_mgr.total_blocks`
loop of `find_next_block` (source lines 2507-2550).  `fuel` is the
explicit termination measure `total_blocks - current_block_index`;
`checks_done` is the source's batch counter.  Each iteration either
advances the index by one (scanned or pattern-skipped block) — and, when
`checks_done` reaches `checks_per_batch = 100` (source lines 2517-2520
and 2530-2533), RETURNS EARLY with `current_block` left unchanged,
scheduling a `GLib.timeout_add(10, find_next_block)` continuation — or
selects the block: sets `current_block`, resets `keys_checked` to 0 and
starts the search thread for it.  When the index reaches `total_blocks`
the loop exits: `current_block = None`, `is_running = False` ("All blocks
scanned", the normal terminal condition).  The `Bool` of the result
records whether this invocation yielded (returned early with the
continuation pending); the continuation itself runs only on a later main
loop iteration, after the caller has already resumed. -/
def findNextBlockLoop : Nat → Nat → CoordState → CoordState × Bool
  | 0, _, st => ({ st with current_block := none, is_running := false }, false)
  | fuel + 1, checks_done, st =>
    let block := st.block_mgr.get_block st.current_block_index
    if (is_block_scanned st.scan_db block.1 block.2).1 then
      let st' : CoordState := { st with current_block_index := st.current_block_index + 1 }
      if 100 ≤ checks_done + 1 then (st', true)
      else findNextBlockLoop fuel (checks_done + 1) st'
    else if (should_skip_block_by_pattern st.pattern_cfg block.1 block.2).1 then
      let st' : CoordState := { st with current_block_index := st.current_block_index + 1 }
      if 100 ≤ checks_done + 1 then (st', true)
      else findNextBlockLoop fuel (checks_done + 1) st'
    else
      ({ st with current_block := some block, keys_checked := 0, worker := some block }, false)

/-- One invocation of `find_next_block` (source line 2502):
`checks_done` starts at 0. -/
def find_next_block (st : CoordState) : CoordState × Bool :=
  findNextBlockLoop (st.block_mgr.total_blocks - st.current_block_index) 0 st

/-- `on_stop` (source line 2795), restricted to the modelled fields:
stops the worker and clears the running flag. -/
def on_stop (st : CoordState) : CoordState :=
  { st with is_running := false, worker := none }

/-- `handle_block_collision` (source line 2057): terminate the current
process, advance the index by one, reset the in-block progress counter,
and call `find_next_block` once.  The source then checks
`if self.current_block:` (line 2074) — a value `find_next_block` did NOT
update when it yielded after 100 checks — and starts a `run_block_search`
thread for whatever `current_block` holds (line 2077): the freshly
selected block on the normal path, but the STALE collided block on the
yield path.  When `current_block` is `None` (partition exhausted), stop. -/
def handle_block_collision (st : CoordState) : CoordState :=
  let st1 := { st with worker := none,
                       current_block_index := st.current_block_index + 1,
                       keys_checked := 0 }
  let st2 := (find_next_block st1).1
  if st2.current_block.isSome then { st2 with worker := st2.current_block }
  else on_stop st2

/-- The ledger-update half of `scrape_pool` (source lines 1991-2046): with
a non-empty scraped block list, first detect a collision (some scraped
block has exactly the boundaries of the block currently in flight, while
running), then merge the blocks into the pool table, and finally — if a
collision was detected — run `handle_block_collision`. -/
def scrape_pool (st : CoordState) (scanned_blocks : List (Nat × Nat)) : CoordState :=
  match scanned_blocks with
  | [] => st
  | _ =>
    let collision_detected :=
      match st.current_block with
      | some cur =>
        st.is_running &&
          scanned_blocks.any fun b => decide (b.1 = cur.1) && decide (b.2 = cur.2)
      | none => false
    let st' := { st with scan_db := (add_pool_blocks st.scan_db scanned_blocks).1 }
    if collision_detected then handle_block_collision st' else st'

/-- `on_start` (source line 2429) as reached after `load_previous_state`
(source line 2101) restored `current_block_index` and `keys_checked` from
the saved state file: build the `BlockManager` from the configured range
and block size, set the running flag, call `find_next_block`, and — as at
source lines 2477-2480 — clear the running flag when no current block was
set. -/
def on_start (range_start range_end block_size : Nat) (db : ScanDatabase)
    (cfg : PatternConfig) (saved_index saved_keys_checked : Nat) : CoordState :=
  let mgr := BlockManager.init range_start range_end (some block_size)
  let st :=
    (find_next_block
      { block_mgr := mgr
        scan_db := db
        pattern_cfg := cfg
        current_block_index := saved_index
        current_block := none
        keys_checked := saved_keys_checked
        is_running := true
        worker := none }).1
  if st.current_block.isSome then st else { st with is_running := false }

/-- The range computation of `build_keyhunt_command` (source lines
2848-2874): `actual_start = block_start`, offset by `keys_checked` when
positive (clipped to `block_end`); the command receives the closed range
`actual_start:block_end`. -/
def build_keyhunt_range (keys_checked block_start block_end : Nat) : Nat × Nat :=
  let actual_start :=
    if 0 < keys_checked then min (block_start + keys_checked) block_end
    else block_start
  (actual_start, block_end)

/-! ## The run_block_search worker loop (source lines 2552-2715)

A non-empty output line of the worker is classified exactly as the
`for line in iter(...)` body does, in its branch order: error marker
(`'Wrong args' / 'ERROR' / 'Error:'`), match marker
(`'PubAddress:' / 'Priv'`), a cumulative key-count line (`T: n`), or any
other informational line.  The model covers a run that is not externally
paused (`is_paused` stays `False`; pausing is a GUI event outside this
serialized run). -/

inductive OutLine where
  | err
  | matched
  | keys (n : Nat)
  | info
  deriving DecidableEq, Repr

/-- Loop state of `run_block_search`: lines read, error flag, last
reported cumulative session key count, the running flag, and whether this
run itself terminated the process (match found or block completed), in
which case `wait()` reports exit code `-15` (SIGTERM). -/
structure RunLoopState where
  lines_read : Nat
  keyhunt_error : Bool
  session_keys : Nat
  is_running : Bool
  terminated_by_us : Bool
  deriving DecidableEq, Repr

/-- One iteration of the output loop on a non-empty line: count the line,
then branch.  An error line sets the flag and continues; a match line
auto-stops; a `T:` line updates `session_keys` and auto-stops when
`keys_checked + session_keys` reaches the block's key count
(`block_end - block_start + 1`). -/
def runLoopStep (keys_checked keys_in_block : Nat) (st : RunLoopState)
    (l : OutLine) : RunLoopState :=
  let st := { st with lines_read := st.lines_read + 1 }
  match l with
  | .err => { st with keyhunt_error := true }
  | .matched => { st with is_running := false, terminated_by_us := true }
  | .keys n =>
    let st := { st with session_keys := n }
    if keys_in_block ≤ keys_checked + n then
      { st with is_running := false, terminated_by_us := true }
    else st
  | .info => st

/-- The output loop: each line is processed only while `is_running` holds
(the loop breaks at the top once the flag is cleared). -/
def runLoop (keys_checked keys_in_block : Nat) :
    List OutLine → RunLoopState → RunLoopState
  | [], st => st
  | l :: rest, st =>
    if st.is_running then
      runLoop keys_checked keys_in_block rest (runLoopStep keys_checked keys_in_block st l)
    else st

/-- Outcome of one `run_block_search` run (the code after the loop,
source lines 2658-2715). -/
inductive RunOutcome where
  /-- `on_block_completed` is scheduled: `add_my_block` upserts a `Mine`
  record for the block with the given total key count. -/
  | completed (total_keys : Nat)
  /-- The startup-failure retry branch was taken (`exit_code == -1` and
  no output, with `retry_count < 3`).  The branch calls `time.sleep(3)`
  before restarting the thread, but the module never imports `time` at
  global scope (only `on_window_close` imports it locally), so the call
  raises `NameError`, the `except` handler logs the exception and clears
  `is_running`: the session stops and no retry ever runs. -/
  | retryCrash
  /-- The "Block NOT completed" branch: log the reasons, reset the retry
  counter, clear `is_running`.  Fatal stop, no `Mine` record. -/
  | stopped
  deriving DecidableEq, Repr

/-- One full `run_block_search` run over the classified output `lines` of
the worker for `block`, entered with `self.keys_checked = keys_checked`
and `self.retry_count = retry_count`.  `proc_exit` is the process's own
exit status, reported by `wait()` when this run did not terminate the
process itself (`-1` stands for the recorded status when the process
handle was cleared or the bounded wait timed out, exactly as the source
assigns it). -/
def run_block_search (keys_checked : Nat) (block : Nat × Nat) (proc_exit : Int)
    (retry_count : Nat) (lines : List OutLine) : RunOutcome :=
  let keys_in_block := block.2 - block.1 + 1
  let st := runLoop keys_checked keys_in_block lines
    { lines_read := 0, keyhunt_error := false, session_keys := 0,
      is_running := true, terminated_by_us := false }
  let exit_code : Int := if st.terminated_by_us then -15 else proc_exit
  if ¬st.keyhunt_error ∧ (exit_code = 0 ∨ exit_code = -15) ∧ 10 ≤ st.lines_read then
    .completed (keys_checked + st.session_keys)
  else if exit_code = -1 ∧ st.lines_read = 0 ∧ retry_count < 3 then
    .retryCrash
  else
    .stopped

/-! ## Arithmetic facts about hex concatenation -/

theorem hexToNat_foldl (v : Nat) (l : List Char) :
    l.foldl (fun acc c => 16 * acc + hexCharVal c) v =
      v * 16 ^ l.length + hexToNat l := by
  induction l generalizing v with
  | nil => simp [hexToNat]
  | cons c t ih =>
    have hc : hexToNat (c :: t) = t.foldl (fun acc c => 16 * acc + hexCharVal c) (hexCharVal c) := by
      simp [hexToNat]
    simp only [List.foldl_cons, List.length_cons, hc, ih]
    ring

theorem hexToNat_append (l1 l2 : List Char) :
    hexToNat (l1 ++ l2) = hexToNat l1 * 16 ^ l2.length + hexToNat l2 := by
  unfold hexToNat
  rw [List.foldl_append]
  exact hexToNat_foldl _ _

/-! ## Claim C5 -/

/-- C5: decoding a compact range code yields exactly 16 blocks (one per
inserted hex digit), and decoding a challenge-completion marker yields
exactly 256 blocks (one per pair of inserted hex digits) — for every
input, in particular for every 2-hex-digit prefix with a 4- or
5-hex-digit suffix. -/
theorem C5_decoder_counts :
    (∀ range_id : List Char, (decode_range_id range_id).length = 16)
    ∧ (∀ challengePre : List Char, (decode_challenge challengePre).length = 256) := by
  constructor
  · intro range_id
    simp [decode_range_id, hexDigitsList]
  · intro challengePre
    simp only [decode_challenge, List.length_flatMap, List.map_map]
    simp [hexDigitsList]

/-! ## Claim C10 -/

/-- C10: every block decoded from a compact range code or a challenge
marker satisfies `start <= end` with length `end - start + 1` exactly
`0x1000000000` keys, which is exactly `BlockManager`'s default block
size, and equals `2 ^ 36`. -/
theorem C10_decoded_block_geometry :
    (∀ range_id : List Char, ∀ p ∈ decode_range_id range_id,
       p.1 ≤ p.2 ∧ p.2 - p.1 + 1 = 0x1000000000)
    ∧ (∀ challengePre : List Char, ∀ p ∈ decode_challenge challengePre,
       p.1 ≤ p.2 ∧ p.2 - p.1 + 1 = 0x1000000000)
    ∧ (∀ s e : Nat, (BlockManager.init s e none).block_size = 0x1000000000)
    ∧ (0x1000000000 : Nat) = 2 ^ 36 := by
  refine ⟨?_, ?_, ?_, by norm_num⟩
  · intro range_id p hp
    simp only [decode_range_id, List.mem_map] at hp
    obtain ⟨x, -, rfl⟩ := hp
    have h1 : range_id.take 2 ++ x :: (range_id.drop 3 ++ lowTail) =
        (range_id.take 2 ++ x :: range_id.drop 3) ++ lowTail := by simp
    have h2 : range_id.take 2 ++ x :: (range_id.drop 3 ++ highTail) =
        (range_id.take 2 ++ x :: range_id.drop 3) ++ highTail := by simp
    have hlow : hexToNat lowTail = 0x3000000000 := by decide
    have hhigh : hexToNat highTail = 0x3FFFFFFFFF := by decide
    have hll : lowTail.length = 10 := by decide
    have hhl : highTail.length = 10 := by decide
    simp only [h1, h2, hexToNat_append, hlow, hhigh, hll, hhl]
    omega
  · intro challengePre p hp
    simp only [decode_challenge, List.mem_flatMap, List.mem_map] at hp
    obtain ⟨x1, -, x2, -, rfl⟩ := hp
    have h1 : challengePre ++ x1 :: x2 :: challengeLowTail =
        (challengePre ++ [x1, x2]) ++ challengeLowTail := by simp
    have h2 : challengePre ++ x1 :: x2 :: challengeHighTail =
        (challengePre ++ [x1, x2]) ++ challengeHighTail := by simp
    have hlow : hexToNat challengeLowTail = 0x3000000000 := by decide
    have hhigh : hexToNat challengeHighTail = 0x3FFFFFFFFF := by decide
    have hll : challengeLowTail.length = 13 := by decide
    have hhl : challengeHighTail.length = 13 := by decide
    simp only [h1, h2, hexToNat_append, hlow, hhigh, hll, hhl]
    omega
  · intro s e
    simp [BlockManager.init]

/-- Witness for C10: the first block decoded from the compact range code
`50XA1EC` has the claimed geometry. -/
theorem C10_witness :
    ((0x500A1EC3000000000 : Nat), (0x500A1EC3FFFFFFFFF : Nat)) ∈
        decode_range_id ['5', '0', 'X', 'A', '1', 'E', 'C']
    ∧ ((0x500A1EC3000000000 : Nat) ≤ 0x500A1EC3FFFFFFFFF
       ∧ (0x500A1EC3FFFFFFFFF : Nat) - 0x500A1EC3000000000 + 1 = 0x1000000000) :=
  ⟨by decide, C10_decoded_block_geometry.1 ['5', '0', 'X', 'A', '1', 'E', 'C']
    ((0x500A1EC3000000000 : Nat), (0x500A1EC3FFFFFFFFF : Nat)) (by decide)⟩

/-! ## Claim C6 -/

/-- C6 counterexample: for the 4-digit-suffix range code `50XA1EC` (the
source's own docstring example), the decoded boundary digit strings have
17 hex digits, not 18: the first decoded pair is
`(0x500A1EC3000000000, 0x500A1EC3FFFFFFFFF)`, and both values are below
`16 ^ 17`, so no 18-hex-digit rendering exists.  The claim that "the
resulting boundaries are 18 hex digits long" fails on this input. -/
theorem C6_counterexample :
    ((['5', '0', 'X', 'A', '1', 'E', 'C'] : List Char).take 2 ++
        '0' :: ((['5', '0', 'X', 'A', '1', 'E', 'C'] : List Char).drop 3 ++ lowTail)).length = 17
    ∧ ¬(((['5', '0', 'X', 'A', '1', 'E', 'C'] : List Char).take 2 ++
        '0' :: ((['5', '0', 'X', 'A', '1', 'E', 'C'] : List Char).drop 3 ++ lowTail)).length = 18)
    ∧ (decode_range_id ['5', '0', 'X', 'A', '1', 'E', 'C']).head? =
        some (0x500A1EC3000000000, 0x500A1EC3FFFFFFFFF)
    ∧ (0x500A1EC3000000000 : Nat) < 16 ^ 17
    ∧ (0x500A1EC3FFFFFFFFF : Nat) < 16 ^ 17 := by
  decide

/-- Conclusion of the amended C6: every decoded pair arises from inserting
one hex digit between the 2-digit prefix and the suffix and appending the
exact tails `3000000000` / `3FFFFFFFFF`; the boundary digit strings have
`range_id.length + 10` digits — 17 for a 4-digit suffix, 18 for a 5-digit
suffix. -/
def C6Post (range_id : List Char) : Prop :=
  (∀ p ∈ decode_range_id range_id, ∃ x ∈ hexDigitsList,
     p = (hexToNat ((range_id.take 2 ++ x :: range_id.drop 3) ++ lowTail),
          hexToNat ((range_id.take 2 ++ x :: range_id.drop 3) ++ highTail))
     ∧ ((range_id.take 2 ++ x :: range_id.drop 3) ++ lowTail).length = range_id.length + 10
     ∧ ((range_id.take 2 ++ x :: range_id.drop 3) ++ highTail).length = range_id.length + 10
     ∧ (range_id.length + 10 = 17 ∨ range_id.length + 10 = 18))
  ∧ hexToNat lowTail = 0x3000000000 ∧ hexToNat highTail = 0x3FFFFFFFFF

/-- C6 amended: for every compact range code (7 characters for a 4-digit
suffix, 8 for a 5-digit suffix), each decoded boundary pair is formed by
inserting one hex digit between the 2-digit prefix and the suffix and
appending the exact tails `3000000000` (low) and `3FFFFFFFFF` (high); the
resulting boundary digit strings are 17 hex digits long for 4-digit
suffixes and 18 for 5-digit suffixes (not always 18, as claimed). -/
theorem C6_amended (range_id : List Char)
    (hlen : range_id.length = 7 ∨ range_id.length = 8) : C6Post range_id := by
  refine ⟨?_, by decide, by decide⟩
  intro p hp
  simp only [decode_range_id, List.mem_map] at hp
  obtain ⟨x, hx, rfl⟩ := hp
  refine ⟨x, hx, by simp, ?_, ?_, by omega⟩
  · have h10 : lowTail.length = 10 := by decide
    simp [h10]
    omega
  · have h10 : highTail.length = 10 := by decide
    simp [h10]
    omega

/-- Witness for C6 amended, at the source docstring's example `50XA1EC`. -/
theorem C6_witness :
    ((['5', '0', 'X', 'A', '1', 'E', 'C'] : List Char).length = 7
      ∨ (['5', '0', 'X', 'A', '1', 'E', 'C'] : List Char).length = 8)
    ∧ C6Post ['5', '0', 'X', 'A', '1', 'E', 'C'] :=
  ⟨by decide, C6_amended ['5', '0', 'X', 'A', '1', 'E', 'C'] (by decide)⟩

/-! ## Claim C7 -/

/-- C7 counterexample: for the master range `0x400..0x4FF` with block size
`0x40` there are 4 blocks, yet `get_block(4)` does not fail: the source
has no bounds check, and the call returns the inverted pair
`(0x500, 0x4FF)` whose start exceeds the master end. -/
theorem C7_counterexample :
    (BlockManager.init 0x400 0x4FF (some 0x40)).total_blocks = 4
    ∧ (BlockManager.init 0x400 0x4FF (some 0x40)).get_block 4 = (0x500, 0x4FF)
    ∧ (0x4FF : Nat) < 0x500 := by
  decide

/-- Conclusion of the amended C7: for an out-of-bounds index `get_block`
returns a pair whose start lies beyond the master end (an empty, inverted
range) instead of failing, and the selection loop — whose index guard is
where exhaustion is actually detected — selects no block and clears the
running flag, the normal "all blocks scanned" terminal condition. -/
def C7Post (s e b i : Nat) : Prop :=
  let m := BlockManager.init s e (some b)
  e < (m.get_block i).1
  ∧ (m.get_block i).2 < (m.get_block i).1
  ∧ ∀ st : CoordState, st.block_mgr = m → st.current_block_index = i →
      find_next_block st =
        ({ st with current_block := none, is_running := false }, false)

/-- C7 amended: `get_block` performs no bounds check; for every index
`i >= total_blocks` it returns a degenerate pair with
`start > master_end >= end` rather than failing with an error, and block
exhaustion is signalled instead by `find_next_block`'s index guard, which
ends the session normally with no current block. -/
theorem C7_amended (s e b i : Nat) (hse : s ≤ e) (hb : 1 ≤ b)
    (hi : (BlockManager.init s e (some b)).total_blocks ≤ i) : C7Post s e b i := by
  have hbm : (BlockManager.init s e (some b)).block_size = b := by
    simp [BlockManager.init]
  have htb : (BlockManager.init s e (some b)).total_blocks = (e - s) / b + 1 := by
    simp [BlockManager.init]
  have hrs : (BlockManager.init s e (some b)).range_start = s := by
    simp [BlockManager.init]
  have hre : (BlockManager.init s e (some b)).range_end = e := by
    simp [BlockManager.init]
  rw [htb] at hi
  have hd := Nat.div_add_mod (e - s) b
  have hm : (e - s) % b < b := Nat.mod_lt _ (by omega)
  have h1 : ((e - s) / b + 1) * b ≤ i * b := Nat.mul_le_mul_right b hi
  have h2 : ((e - s) / b + 1) * b = b * ((e - s) / b) + b := by ring
  have hstart : e < s + i * b := by omega
  refine ⟨?_, ?_, ?_⟩
  · simp only [BlockManager.get_block, hbm, hrs, hre]
    exact hstart
  · simp only [BlockManager.get_block, hbm, hrs, hre]
    rw [min_eq_right (by omega)]
    exact hstart
  · intro st hmgr hidx
    have hfuel : st.block_mgr.total_blocks - st.current_block_index = 0 := by
      rw [hmgr, hidx, htb]
      omega
    rw [find_next_block, hfuel]
    rfl

/-- Witness for C7 amended, at the first out-of-bounds index of the
4-block partition of `0x400..0x4FF`. -/
theorem C7_witness :
    (0x400 : Nat) ≤ 0x4FF ∧ (1 : Nat) ≤ 0x40
    ∧ (BlockManager.init 0x400 0x4FF (some 0x40)).total_blocks ≤ 4
    ∧ C7Post 0x400 0x4FF 0x40 4 :=
  ⟨by decide, by decide, by decide, C7_amended 0x400 0x4FF 0x40 4 (by decide) (by decide) (by decide)⟩

/-! ## Claim C3 -/

/-- Conclusion of C3: the block count is the ceiling of
`(end - start + 1) / block_size` (stated both as the standard integer
formula and by its characteristic inequalities), consecutive blocks are
contiguous, blocks are strictly increasing (hence non-overlapping), their
union is exactly the master range, every block has length at most
`block_size`, and every block except possibly the last has length exactly
`block_size`. -/
def C3Post (s e b : Nat) : Prop :=
  let m := BlockManager.init s e (some b)
  m.total_blocks = (e - s + 1 + (b - 1)) / b
  ∧ e - s + 1 ≤ m.total_blocks * b
  ∧ (m.total_blocks - 1) * b < e - s + 1
  ∧ (∀ i, i + 1 < m.total_blocks →
      (m.get_block (i + 1)).1 = (m.get_block i).2 + 1)
  ∧ (∀ i j, i < j → j < m.total_blocks →
      (m.get_block i).2 < (m.get_block j).1)
  ∧ (∀ k, (s ≤ k ∧ k ≤ e) ↔
      ∃ i, i < m.total_blocks ∧ (m.get_block i).1 ≤ k ∧ k ≤ (m.get_block i).2)
  ∧ (∀ i, i < m.total_blocks →
      (m.get_block i).2 + 1 - (m.get_block i).1 ≤ b)
  ∧ (∀ i, i + 1 < m.total_blocks →
      (m.get_block i).2 + 1 - (m.get_block i).1 = b)

/-- C3: for every master range with `start <= end` and every block size
`>= 1`, `BlockManager` partitions the range into
`ceil((end - start + 1) / block_size)` contiguous, non-overlapping,
increasing blocks whose union is exactly the master range, each of length
at most `block_size` (exactly `block_size` except possibly the last). -/
theorem C3_partition (s e b : Nat) (hse : s ≤ e) (hb : 1 ≤ b) : C3Post s e b := by
  have hbpos : 0 < b := hb
  have htb : (BlockManager.init s e (some b)).total_blocks = (e - s) / b + 1 := by
    simp [BlockManager.init]
  have hgb1 : ∀ i, ((BlockManager.init s e (some b)).get_block i).1 = s + i * b := by
    intro i
    simp [BlockManager.init, BlockManager.get_block]
  have hgb2 : ∀ i, ((BlockManager.init s e (some b)).get_block i).2 =
      min (s + i * b + b - 1) e := by
    intro i
    simp [BlockManager.init, BlockManager.get_block]
  have hlo : (e - s) / b * b ≤ e - s := Nat.div_mul_le_self _ _
  have hhi : e - s < (e - s) / b * b + b := Nat.lt_div_mul_add hbpos
  -- the end of any non-final block is not clipped by the master end
  have hnc : ∀ i, i + 1 ≤ (e - s) / b → s + i * b + b - 1 ≤ e := by
    intro i hi
    have h1 : (i + 1) * b ≤ (e - s) / b * b := Nat.mul_le_mul_right b hi
    rw [Nat.succ_mul] at h1
    omega
  refine ⟨?_, ?_, ?_, ?_, ?_, ?_, ?_, ?_⟩
  · rw [htb]
    have h : e - s + 1 + (b - 1) = (e - s) + b := by omega
    rw [h, Nat.add_div_right _ hbpos]
  · rw [htb, Nat.succ_mul]
    omega
  · rw [htb, Nat.succ_sub_one]
    omega
  · intro i hi
    rw [htb] at hi
    rw [hgb1, hgb2, min_eq_left (hnc i (by omega)), Nat.succ_mul]
    omega
  · intro i j hij hj
    rw [hgb2, hgb1]
    have h1 : (i + 1) * b ≤ j * b := Nat.mul_le_mul_right b hij
    rw [Nat.succ_mul] at h1
    have h2 := min_le_left (s + i * b + b - 1) e
    omega
  · intro k
    constructor
    · rintro ⟨hsk, hke⟩
      have hlo2 : (k - s) / b * b ≤ k - s := Nat.div_mul_le_self _ _
      have hhi2 : k - s < (k - s) / b * b + b := Nat.lt_div_mul_add hbpos
      have hmono : (k - s) / b ≤ (e - s) / b :=
        Nat.div_le_div_right (show k - s ≤ e - s by omega)
      refine ⟨(k - s) / b, ?_, ?_, ?_⟩
      · rw [htb]
        omega
      · rw [hgb1]
        omega
      · rw [hgb2, le_min_iff]
        exact ⟨by omega, hke⟩
    · rintro ⟨i, hi, h1, h2⟩
      rw [hgb1] at h1
      rw [hgb2] at h2
      have h3 := min_le_right (s + i * b + b - 1) e
      exact ⟨by omega, by omega⟩
  · intro i hi
    rw [hgb1, hgb2]
    have h1 := min_le_left (s + i * b + b - 1) e
    omega
  · intro i hi
    rw [htb] at hi
    rw [hgb1, hgb2, min_eq_left (hnc i (by omega))]
    omega

/-- Witness for C3, at the spec's end-to-end example: master range
`0x400..0x4FF`, block size `0x40` (4 blocks). -/
theorem C3_witness :
    (0x400 : Nat) ≤ 0x4FF ∧ (1 : Nat) ≤ 0x40 ∧ C3Post 0x400 0x4FF 0x40 :=
  ⟨by decide, by decide, C3_partition 0x400 0x4FF 0x40 (by decide) (by decide)⟩

/-! ## Claim C9 -/

/-- The spec's predicate, in its own words: the string contains a run of
`n` or more identical consecutive characters other than `'0'` (a
contiguous sublist `replicate n c` with `c` not `'0'`). -/
def containsNonzeroRun (s : List Char) (n : Nat) : Prop :=
  ∃ c l1 l2, s = l1 ++ List.replicate n c ++ l2 ∧ c ≠ '0'

theorem containsNonzeroRun_nil {n : Nat} (h : containsNonzeroRun [] n) : n = 0 := by
  obtain ⟨c, l1, l2, h, -⟩ := h
  have := congrArg List.length h
  simp at this
  omega

theorem containsNonzeroRun_cons (a : Char) (l : List Char) (n : Nat) (hn : 1 ≤ n) :
    containsNonzeroRun (a :: l) n ↔
      (a ≠ '0' ∧ List.replicate (n - 1) a <+: l) ∨ containsNonzeroRun l n := by
  constructor
  · rintro ⟨c, l1, l2, h, hc⟩
    cases l1 with
    | nil =>
      rw [show n = (n - 1) + 1 by omega, List.replicate_succ, List.nil_append,
        List.cons_append] at h
      obtain ⟨rfl, hl⟩ := List.cons.inj h
      exact Or.inl ⟨hc, l2, hl.symm⟩
    | cons b t =>
      rw [List.cons_append, List.cons_append] at h
      obtain ⟨rfl, hl⟩ := List.cons.inj h
      exact Or.inr ⟨c, t, l2, by simpa using hl, hc⟩
  · rintro (⟨ha, t, ht⟩ | ⟨c, l1, l2, h, hc⟩)
    · refine ⟨a, [], t, ?_, ha⟩
      rw [List.nil_append, show n = (n - 1) + 1 by omega, List.replicate_succ,
        List.cons_append, ht]
    · exact ⟨c, a :: l1, l2, by simp [h], hc⟩

theorem replicate_isPrefix_append (p c : Char) (hne : c ≠ p) (t : List Char) :
    ∀ (k m : Nat), (List.replicate k p <+: (List.replicate m p ++ c :: t)) ↔ k ≤ m := by
  intro k
  induction k with
  | zero => simp
  | succ k ih =>
    intro m
    cases m with
    | zero =>
      simp only [List.replicate_succ, List.replicate_zero, List.nil_append,
        List.cons_prefix_cons]
      constructor
      · rintro ⟨rfl, -⟩
        exact absurd rfl hne
      · omega
    | succ m =>
      simp only [List.replicate_succ, List.cons_append, List.cons_prefix_cons,
        true_and]
      rw [ih m]
      omega

theorem not_containsNonzeroRun_replicate (p : Char) (m n : Nat) (hn : 1 ≤ n)
    (hno : ¬(n ≤ m ∧ p ≠ '0')) : ¬containsNonzeroRun (List.replicate m p) n := by
  rintro ⟨c, l1, l2, h, hc⟩
  have hlen := congrArg List.length h
  simp at hlen
  have hcp : c = p := by
    have hmem : c ∈ List.replicate m p := by
      rw [h]
      exact List.mem_append_left _ (List.mem_append_right _
        (List.mem_replicate.2 ⟨by omega, rfl⟩))
    exact List.eq_of_mem_replicate hmem
  exact hno ⟨by omega, hcp ▸ hc⟩

theorem containsNonzeroRun_replicate_append (p c : Char) (hne : c ≠ p)
    (t : List Char) (n : Nat) (hn : 2 ≤ n) :
    ∀ m, ¬(n ≤ m ∧ p ≠ '0') →
      (containsNonzeroRun (List.replicate m p ++ c :: t) n ↔
        containsNonzeroRun (c :: t) n) := by
  intro m
  induction m with
  | zero => simp
  | succ m ih =>
    intro hno
    have hstep : List.replicate (m + 1) p ++ c :: t =
        p :: (List.replicate m p ++ c :: t) := by
      simp [List.replicate_succ]
    rw [hstep, containsNonzeroRun_cons _ _ _ (by omega),
      replicate_isPrefix_append p c hne t (n - 1) m]
    constructor
    · rintro (⟨hp0, hle⟩ | h)
      · exact absurd ⟨by omega, hp0⟩ hno
      · exact (ih (fun hx => hno ⟨by omega, hx.2⟩)).mp h
    · intro h
      exact Or.inr ((ih (fun hx => hno ⟨by omega, hx.2⟩)).mpr h)

theorem hasRepeatedCharsLoop_iff (N : Nat) (hN : 2 ≤ N) :
    ∀ (rest : List Char) (count : Nat) (p : Char), 1 ≤ count →
      ¬(N ≤ count ∧ p ≠ '0') →
      (hasRepeatedCharsLoop N rest count (some p) = true ↔
        containsNonzeroRun (List.replicate count p ++ rest) N) := by
  intro rest
  induction rest with
  | nil =>
    intro count p h1 hno
    simp only [hasRepeatedCharsLoop, List.append_nil, Bool.false_eq_true,
      false_iff]
    exact not_containsNonzeroRun_replicate p count N (by omega) hno
  | cons c rest ih =>
    intro count p h1 hno
    by_cases hpc : p = c
    · subst hpc
      have hstep : List.replicate count p ++ p :: rest =
          List.replicate (count + 1) p ++ rest := by
        simp [List.replicate_succ', List.append_assoc]
      have hunfold : hasRepeatedCharsLoop N (p :: rest) count (some p) =
          if N ≤ count + 1 ∧ p ≠ '0' then true
          else hasRepeatedCharsLoop N rest (count + 1) (some p) := by
        simp [hasRepeatedCharsLoop]
      rw [hstep, hunfold]
      by_cases htr : N ≤ count + 1 ∧ p ≠ '0'
      · rw [if_pos htr]
        simp only [true_iff]
        refine ⟨p, [], List.replicate (count + 1 - N) p ++ rest, ?_, htr.2⟩
        rw [List.nil_append, ← List.append_assoc, ← List.replicate_add]
        congr 2
        omega
      · rw [if_neg htr]
        exact ih (count + 1) p (by omega) htr
    · have hunfold : hasRepeatedCharsLoop N (c :: rest) count (some p) =
          hasRepeatedCharsLoop N rest 1 (some c) := by
        simp [hasRepeatedCharsLoop, hpc]
      rw [hunfold, ih 1 c (le_refl 1) (fun hx => by omega)]
      simp only [List.replicate, List.singleton_append]
      exact (containsNonzeroRun_replicate_append p c (Ne.symm hpc) rest N hN
        count hno).symm

/-- C9 counterexample: the claim quantifies over every threshold `N`, but
for `N = 1` the source's loop only tests the run length after seeing a
repeat, so a run of length exactly 1 is never flagged: `"A"` contains a
run of 1 identical consecutive non-`'0'` character, yet
`has_repeated_chars("A", 1)` returns `False`. -/
theorem C9_counterexample :
    has_repeated_chars ['A'] 1 = false ∧ containsNonzeroRun ['A'] 1 :=
  ⟨by decide, ⟨'A', [], [], rfl, by decide⟩⟩

/-- C9 amended: for every threshold `N >= 2` (which covers both thresholds
3 and 4 the program uses), `has_repeated_chars` returns `True` exactly
when the string contains a run of `N` or more identical consecutive
characters other than `'0'`; runs of `'0'` never cause a flag.  In
particular with threshold 3 it flags `"7111111"` but flags neither
`"7000000"` nor `"7101010"`. -/
theorem C9_amended :
    (∀ (s : List Char) (N : Nat), 2 ≤ N →
       (has_repeated_chars s N = true ↔ containsNonzeroRun s N))
    ∧ has_repeated_chars ['7', '1', '1', '1', '1', '1', '1'] 3 = true
    ∧ has_repeated_chars ['7', '0', '0', '0', '0', '0', '0'] 3 = false
    ∧ has_repeated_chars ['7', '1', '0', '1', '0', '1', '0'] 3 = false := by
  refine ⟨?_, by decide, by decide, by decide⟩
  intro s N hN
  cases s with
  | nil =>
    simp only [has_repeated_chars, hasRepeatedCharsLoop, Bool.false_eq_true,
      false_iff]
    intro h
    have := containsNonzeroRun_nil h
    omega
  | cons c rest =>
    have hcond : ¬((none : Option Char) = some c) := by simp
    simp only [has_repeated_chars, hasRepeatedCharsLoop, if_neg hcond]
    rw [hasRepeatedCharsLoop_iff N hN rest 1 c (le_refl 1) (fun hx => by omega)]
    simp [List.replicate]

/-- Witness for the amended C9 at threshold 3 on `"7111111"`. -/
theorem C9_witness :
    (2 : Nat) ≤ 3 ∧
      (has_repeated_chars ['7', '1', '1', '1', '1', '1', '1'] 3 = true ↔
        containsNonzeroRun ['7', '1', '1', '1', '1', '1', '1'] 3) :=
  ⟨by decide, C9_amended.1 ['7', '1', '1', '1', '1', '1', '1'] 3 (by decide)⟩

/-! ## Claim C1 -/

/-- Spec-side description of a line that makes the output loop terminate
the worker: a match line, or a cumulative count line reaching the block's
key count. -/
def stopsLine (keys_checked keys_in_block : Nat) : OutLine → Bool
  | .matched => true
  | .keys n => decide (keys_in_block ≤ keys_checked + n)
  | _ => false

/-- Spec-side description of the lines the loop actually processes: the
prefix of the stream up to and including the first terminating line. -/
def consumedLines (keys_checked keys_in_block : Nat) : List OutLine → List OutLine
  | [] => []
  | l :: rest =>
    if stopsLine keys_checked keys_in_block l then [l]
    else l :: consumedLines keys_checked keys_in_block rest

/-- Whether a list of lines contains an error line. -/
def sawError (ls : List OutLine) : Bool :=
  ls.any fun l => match l with | .err => true | _ => false

/-- The last reported cumulative session key count in a list of lines
(`sk` if none). -/
def lastKeysFrom (sk : Nat) (ls : List OutLine) : Nat :=
  ls.foldl (fun acc l => match l with | .keys n => n | _ => acc) sk

/-- The exit code `run_block_search` observes: `-15` when the loop itself
terminated the worker, the process's own status otherwise. -/
def effectiveExit (keys_checked keys_in_block : Nat) (proc_exit : Int)
    (lines : List OutLine) : Int :=
  if lines.any (stopsLine keys_checked keys_in_block) then -15 else proc_exit

theorem runLoop_not_running (kc kib : Nat) (ls : List OutLine)
    (st : RunLoopState) (h : st.is_running = false) :
    runLoop kc kib ls st = st := by
  cases ls with
  | nil => rfl
  | cons l rest => simp [runLoop, h]

theorem runLoop_spec (kc kib : Nat) (lines : List OutLine) :
    ∀ (lr sk : Nat) (err : Bool),
      runLoop kc kib lines ⟨lr, err, sk, true, false⟩ =
        { lines_read := lr + (consumedLines kc kib lines).length
          keyhunt_error := err || sawError (consumedLines kc kib lines)
          session_keys := lastKeysFrom sk (consumedLines kc kib lines)
          is_running := !(lines.any (stopsLine kc kib))
          terminated_by_us := lines.any (stopsLine kc kib) } := by
  induction lines with
  | nil =>
    intro lr sk err
    simp [runLoop, consumedLines, sawError, lastKeysFrom]
  | cons l rest ih =>
    intro lr sk err
    cases l with
    | err =>
      simp only [runLoop, runLoopStep, if_pos]
      rw [ih]
      simp [consumedLines, stopsLine, sawError, lastKeysFrom]
      omega
    | matched =>
      simp only [runLoop, runLoopStep, if_pos]
      rw [runLoop_not_running kc kib rest _ rfl]
      simp [consumedLines, stopsLine, sawError, lastKeysFrom]
    | keys n =>
      by_cases hth : kib ≤ kc + n
      · simp only [runLoop, runLoopStep, if_pos hth]
        rw [runLoop_not_running kc kib rest _ rfl]
        simp [consumedLines, stopsLine, sawError, lastKeysFrom, hth]
      · simp only [runLoop, runLoopStep, if_neg hth]
        rw [ih]
        simp [consumedLines, stopsLine, sawError, lastKeysFrom, hth]
        omega
    | info =>
      simp only [runLoop, runLoopStep]
      rw [ih]
      simp [consumedLines, stopsLine, sawError, lastKeysFrom]
      omega

/-- C1 counterexample: a run in which the worker emits ten informational
lines, never reports any key count (the reported cumulative count stays
0, below the block's 10 keys), and exits cleanly with code 0.  The
completion branch still fires — `on_block_completed` upserts a `Mine`
record with `keys_checked = 0` — refuting the claim that a `Mine` record
is written only when the reported count reaches
`end - start + 1`. -/
theorem C1_counterexample :
    run_block_search 0 (0, 9) 0 0 (List.replicate 10 OutLine.info) =
      RunOutcome.completed 0
    ∧ (0 : Nat) < 9 - 0 + 1 := by
  decide

/-- C1 amended: a `Mine` record is upserted for the block (outcome
`completed`) exactly when the run sees no error line among the lines it
processes, the effective exit code is 0 or -15, and at least 10 lines
were read; the recorded total is the carried-over count plus the last
reported session count, which can be below the block's key count (a
count reaching the key count merely terminates the worker with exit -15,
making the conditions hold whenever at least 10 lines were read). -/
theorem C1_amended (keys_checked : Nat) (block : Nat × Nat) (proc_exit : Int)
    (retry_count : Nat) (lines : List OutLine) (t : Nat) :
    run_block_search keys_checked block proc_exit retry_count lines =
        RunOutcome.completed t ↔
      (sawError (consumedLines keys_checked (block.2 - block.1 + 1) lines) = false
       ∧ (effectiveExit keys_checked (block.2 - block.1 + 1) proc_exit lines = 0
          ∨ effectiveExit keys_checked (block.2 - block.1 + 1) proc_exit lines = -15)
       ∧ 10 ≤ (consumedLines keys_checked (block.2 - block.1 + 1) lines).length
       ∧ t = keys_checked +
           lastKeysFrom 0 (consumedLines keys_checked (block.2 - block.1 + 1) lines)) := by
  simp only [run_block_search, effectiveExit]
  rw [runLoop_spec]
  simp only [Bool.false_or, Nat.zero_add]
  split_ifs with hA hC hS hC2 hS2
  · obtain ⟨he, hec, hlr⟩ := hC
    simp only [RunOutcome.completed.injEq]
    constructor
    · rintro rfl
      exact ⟨by simpa using he, by simp, by simpa using hlr, rfl⟩
    · rintro ⟨-, -, -, rfl⟩
      rfl
  · constructor
    · intro h
      simp at h
    · rintro ⟨he, hec, hlr, -⟩
      refine absurd ⟨?_, ?_, ?_⟩ hC
      · simp [he]
      · simp
      · simpa using hlr
  · constructor
    · intro h
      simp at h
    · rintro ⟨he, hec, hlr, -⟩
      refine absurd ⟨?_, ?_, ?_⟩ hC
      · simp [he]
      · simp
      · simpa using hlr
  · obtain ⟨he, hec, hlr⟩ := hC2
    simp only [RunOutcome.completed.injEq]
    constructor
    · rintro rfl
      exact ⟨by simpa using he, by simpa using hec, by simpa using hlr, rfl⟩
    · rintro ⟨-, -, -, rfl⟩
      rfl
  · constructor
    · intro h
      simp at h
    · rintro ⟨he, hec, hlr, -⟩
      refine absurd ⟨?_, ?_, ?_⟩ hC2
      · simp [he]
      · simpa using hec
      · simpa using hlr
  · constructor
    · intro h
      simp at h
    · rintro ⟨he, hec, hlr, -⟩
      refine absurd ⟨?_, ?_, ?_⟩ hC2
      · simp [he]
      · simpa using hec
      · simpa using hlr

/-! ## Claim C8 -/

/-- C8 failing input, evaluated: a run with no output lines whose recorded
exit status is `-1` (the source's startup-failure signature).  For retry
counts 0, 1 and 2 the code enters the retry branch — which in the source
immediately raises `NameError` on `time.sleep(3)` because `time` is never
imported at module scope, so the exception handler stops the session and
the advertised retry never happens (outcome `retryCrash`); at the cap
(`retry_count = 3`) the failure is fatal (`stopped`). -/
theorem C8_failing_eval :
    run_block_search 0 (0, 0xFFF) (-1) 0 [] = RunOutcome.retryCrash
    ∧ run_block_search 0 (0, 0xFFF) (-1) 1 [] = RunOutcome.retryCrash
    ∧ run_block_search 0 (0, 0xFFF) (-1) 2 [] = RunOutcome.retryCrash
    ∧ run_block_search 0 (0, 0xFFF) (-1) 3 [] = RunOutcome.stopped := by
  decide

/-! ## Claim C4 -/

/-- C4, evaluated on the code: start a session from a saved
`ProgressState` with `current_block_index = 0` and `keys_checked = 10`
over the master range `0x400..0x4FF` with block size `0x40`, empty
ledger, no pattern exclusions.  `find_next_block` selects block 0 but
unconditionally resets `keys_checked` to 0 (source line 2538), so the
worker command covers the whole block `0x400..0x43F` instead of starting
at `0x40A`: the carried-over in-block progress is discarded.  The last
conjunct shows the resume-offset logic of `build_keyhunt_command` that
the reset bypasses: had `keys_checked` kept its saved value 10, the range
would have started at `0x40A` as the claim states. -/
theorem C4_code_eval :
    (on_start 0x400 0x4FF 0x40 ⟨[], []⟩ ⟨false, false, false⟩ 0 10).keys_checked = 0
    ∧ (on_start 0x400 0x4FF 0x40 ⟨[], []⟩ ⟨false, false, false⟩ 0 10).current_block =
        some (0x400, 0x43F)
    ∧ build_keyhunt_range
        (on_start 0x400 0x4FF 0x40 ⟨[], []⟩ ⟨false, false, false⟩ 0 10).keys_checked
        0x400 0x43F = (0x400, 0x43F)
    ∧ build_keyhunt_range 10 0x400 0x43F = (0x40A, 0x43F) := by
  decide

/-! ## Claim C2 -/

/-- Ledger for the C2 failing input: blocks 1..100 of the 104-block
partition of `0x1000..0x167F` (block size `0x10`) are already
pool-claimed, stored exactly as the source stores them (upper-case hex
text keyed by `block_start`). -/
def exampleYieldDb : ScanDatabase :=
  { pool_scanned :=
      (List.range 100).map fun k =>
        (toHexUpper (0x1010 + 16 * k), toHexUpper (0x101F + 16 * k))
    my_scanned := [] }

/-- Coordinator state for the C2 failing input: block 0
(`0x1000..0x100F`) is in flight while blocks 1..100 are pool-claimed; no
pattern exclusions. -/
def exampleYieldState : CoordState :=
  { block_mgr := BlockManager.init 0x1000 0x167F (some 0x10)
    scan_db := exampleYieldDb
    pattern_cfg := { exclude_iter3 := false, exclude_iter4 := false, exclude_alphanum := false }
    current_block_index := 0
    current_block := some (0x1000, 0x100F)
    keys_checked := 0
    is_running := true
    worker := some (0x1000, 0x100F) }

set_option maxRecDepth 100000 in
set_option maxHeartbeats 4000000 in
/-- C2, evaluated on the code at its failing input: the background
pool-ledger update delivers a claim with exactly the boundaries of the
in-flight block 0 while blocks 1..100 are already claimed.
`handle_block_collision` advances the index and calls `find_next_block`,
which examines 100 consecutive claimed indices, hits `checks_per_batch`
and returns early (source lines 2517-2520) with `current_block` left
unchanged; the handler's `if self.current_block:` check (line 2074) then
sees the STALE collided block and starts a new `run_block_search` thread
for it (line 2077) — while logging "Switched to fresh block".  So after
the collision the worker is relaunched on the very block the pool just
claimed (first two conjuncts), a block the merged ledger records as
pool-scanned (third conjunct); the inner `find_next_block` call indeed
yielded (fourth conjunct).  The last two conjuncts record that the input
satisfies the claim's premise: the delivered block equals the in-flight
block of a running search.  This refutes "stops the in-flight worker,
never writes a Mine record for that block, and re-enters block
selection": the relaunched worker searches the claimed block and its
completion would record a Mine exclusion for it. -/
theorem C2_code_eval :
    (scrape_pool exampleYieldState [(0x1000, 0x100F)]).worker = some (0x1000, 0x100F)
    ∧ (scrape_pool exampleYieldState [(0x1000, 0x100F)]).current_block =
        some (0x1000, 0x100F)
    ∧ (is_block_scanned (scrape_pool exampleYieldState [(0x1000, 0x100F)]).scan_db
        0x1000 0x100F).1 = true
    ∧ (find_next_block
        { exampleYieldState with
            scan_db := (add_pool_blocks exampleYieldState.scan_db [(0x1000, 0x100F)]).1
            worker := none
            current_block_index := 1 }).2 = true
    ∧ exampleYieldState.current_block = some (0x1000, 0x100F)
    ∧ exampleYieldState.is_running = true := by
  decide

end KeyHunt
